import Mathlib

/-!
Verification of the riftbound card-catalog pipeline.

Shallow embedding of the two near-identical pipeline cores:
* `src/worker/official.py` — the worker that scrapes the official gallery,
  normalizes variants, groups them by card name, publishes images
  idempotently and diffs snapshots (embedded below at top level), and
* `src/scripts/cards.py` — the multi-image catalog variant (embedded in
  the `Scripts` namespace).

Machine integers are modelled as `Int`/`Nat` (Python ints are unbounded),
Python strings as `String` (comparison is by code point in both), Python
`None`-able values as `Option`, and dict-shaped records as structures
whose fields carry exactly the types the code's `isinstance` checks
accept (a value of any other type behaves as the absent/default case,
exactly as the defensive `.get` chains do).  Python's `sorted` is a
stable ascending sort, embedded as `List.insertionSort` with a lax `≤`
relation, which is stable in the same sense.  String operations are
implemented structurally over the character data so that every
definition evaluates inside the kernel.
-/

/-- Python's `<` on strings: strict lexicographic comparison of the
code-point sequences. -/
def strLtB : List Char → List Char → Bool
  | [], [] => false
  | [], _ :: _ => true
  | _ :: _, [] => false
  | a :: as, b :: bs =>
    if a < b then true
    else if b < a then false
    else strLtB as bs

/-- Python's `<=` on strings: `a <= b ↔ ¬ b < a` for the total order. -/
def strLeB (a b : List Char) : Bool :=
  !(strLtB b a)

/-- From `official.py` (`normalize_variant_number`): replace a trailing
`'*'` with `'s'`.  Python's `value.endswith("*")` is exactly "the last
character is `'*'`", embedded via `List.getLast?` on the character data. -/
def normalize_variant_number (value : String) : String :=
  match value.data.getLast? with
  | some '*' => (value.data.dropLast ++ ['s']).asString
  | _ => value

namespace Scripts

/-- From `scripts/cards.py` (`normalize_variant_number`): identical logic
to the worker's function of the same name. -/
def normalize_variant_number (variant_number : String) : String :=
  match variant_number.data.getLast? with
  | some '*' => (variant_number.data.dropLast ++ ['s']).asString
  | _ => variant_number

end Scripts

/-- Raw card record from the scraped payload, restricted to the fields
`build_variant_number` reads.  Each field is `none` when the key is
absent or its value has a type the code's `isinstance` check rejects:
* `publicCode` — `card["publicCode"]` when a string;
* `collectorNumber` — `card["collectorNumber"]` when an int;
* `setId` — `card["set"]["value"]["id"]` when a string;
* `id` — `card["id"]` when a string (`Sum.inl`) or an int (`Sum.inr`). -/
structure RawCard where
  publicCode : Option String := none
  collectorNumber : Option Int := none
  setId : Option String := none
  id : Option (String ⊕ Int) := none
deriving Repr, DecidableEq

/-- Python's `f"{n:03d}"` on an unbounded int: pad with leading zeros to
a total width of 3 (the sign, when present, counts toward the width). -/
def format03 (n : Int) : String :=
  if n < 0 then
    let s := Nat.repr (-n).toNat
    "-" ++ ((List.replicate (2 - s.length) '0').asString ++ s)
  else
    let s := Nat.repr n.toNat
    (List.replicate (3 - s.length) '0').asString ++ s

/-- Fallback chain of `build_variant_number` after the `publicCode`
branch: `set.value.id` + zero-padded `collectorNumber`, else the generic
`id` field coerced to a string, else the literal `"UNKNOWN"`. -/
def build_variant_number_fallback (card : RawCard) : String :=
  match card.setId, card.collectorNumber with
  | some set_id, some collector =>
      normalize_variant_number (set_id ++ "-" ++ format03 collector)
  | _, _ =>
      match card.id with
      | some (Sum.inl s) => normalize_variant_number s
      | some (Sum.inr i) => normalize_variant_number (Int.repr i)
      | none => "UNKNOWN"

/-- From `official.py` (`build_variant_number`): prefer `publicCode`
(keeping the part before its first `'/'`, Python's
`public_code.split("/")[0]`) when it is a string containing `'/'`;
otherwise fall through to `build_variant_number_fallback`.  The
`'*' → 's'` normalization is applied to every branch's result. -/
def build_variant_number (card : RawCard) : String :=
  match card.publicCode with
  | some pc =>
      if pc.data.contains '/' then
        normalize_variant_number (pc.data.takeWhile (fun c => c ≠ '/')).asString
      else
        build_variant_number_fallback card
  | none => build_variant_number_fallback card

/-- Intermediate variant entry, the dict built by `map_card_variant` in
`official.py`.  The `type` dict key is a Lean keyword and is embedded as
`type_`; the `super` key keeps its name.  Typed per the values the
normalizer produces: strings default to `""`, `super` may be `None`. -/
structure Entry where
  name : String := ""
  description : String := ""
  variantNumber : String := ""
  variantImage : String := ""
  type_ : String := ""
  super : Option String := none
  energy : Int := 0
  power : Int := 0
  might : Int := 0
  colors : List String := []
  tags : List String := []
  releaseDate : String := ""
  setId : String := ""
deriving Repr, DecidableEq, Inhabited

/-- From `official.py` (`parse_variant_components`): the numeric piece
and suffix of a variant code.  With no dash the result is
`(0, code.lower())`.  Otherwise `rest` is everything after the first
dash (`split("-", 1)[1]`); the number is `int` of all digit characters
of `rest` concatenated, and the suffix is `rest` with its first
`len(digits)` characters dropped, lowercased.  Digits are ASCII here
(the code uses `str.isdigit`, which additionally accepts non-ASCII
decimal digits; no catalog code contains those), and `lower` is
embedded as `Char.toLower` (ASCII; ditto). -/
def parse_variant_components (variant_number : String) : Nat × String :=
  if variant_number.data.contains '-' = false then
    (0, (variant_number.data.map Char.toLower).asString)
  else
    let rest := (variant_number.data.dropWhile (fun c => c ≠ '-')).tail
    let digits := rest.filter Char.isDigit
    if digits.isEmpty then
      (0, (rest.map Char.toLower).asString)
    else
      (digits.foldl (fun n c => n * 10 + (c.toNat - '0'.toNat)) 0,
        ((rest.drop digits.length).map Char.toLower).asString)

/-- From `official.py` (`variant_sort_key`): the ascending sort key
`(releaseDate, setId, number, suffix, variantNumber)`.  `setId` falls
back to the part of the code before its first dash
(`split("-", 1)[0]`) when the entry's `setId` is empty (Python's
`entry.get("setId") or ...`). -/
def variant_sort_key (entry : Entry) : String × String × Nat × String × String :=
  let set_id :=
    if entry.setId = "" then
      (entry.variantNumber.data.takeWhile (fun c => c ≠ '-')).asString
    else entry.setId
  let ns := parse_variant_components entry.variantNumber
  (entry.releaseDate, set_id, ns.1, ns.2, entry.variantNumber)

/-- Python's tuple `<=` on `(str, str, int, str, str)`: compare
componentwise, the first strict difference deciding. -/
def keyLe (a b : String × String × Nat × String × String) : Bool :=
  if strLtB a.1.data b.1.data then true
  else if strLtB b.1.data a.1.data then false
  else if strLtB a.2.1.data b.2.1.data then true
  else if strLtB b.2.1.data a.2.1.data then false
  else if decide (a.2.2.1 < b.2.2.1) then true
  else if decide (b.2.2.1 < a.2.2.1) then false
  else if strLtB a.2.2.2.1.data b.2.2.2.1.data then true
  else if strLtB b.2.2.2.1.data a.2.2.2.1.data then false
  else strLeB a.2.2.2.2.data b.2.2.2.2.data

/-- Entry comparison via `variant_sort_key`: the relation under which
Python's stable `sorted(..., key=variant_sort_key)` sorts. -/
def entryLe (a b : Entry) : Prop :=
  keyLe (variant_sort_key a) (variant_sort_key b) = true

instance : DecidableRel entryLe := fun a b =>
  inferInstanceAs (Decidable (keyLe (variant_sort_key a) (variant_sort_key b) = true))

/-- Python string `<=`, the relation under which `sorted(grouped)`
sorts the card names. -/
def nameLe (a b : String) : Prop :=
  strLeB a.data b.data = true

instance : DecidableRel nameLe := fun a b =>
  inferInstanceAs (Decidable (strLeB a.data b.data = true))

/-- First-occurrence deduplication of a key list, the key order of a
Python dict built by repeated insertion (`seen` accumulates the keys
already emitted). -/
def dedup_keys_from (seen : List String) : List String → List String
  | [] => []
  | x :: xs =>
    if x ∈ seen then dedup_keys_from seen xs
    else x :: dedup_keys_from (x :: seen) xs

/-- Key list of a Python dict built by repeated insertion: every key
once, in first-occurrence order. -/
def dedup_keys (l : List String) : List String :=
  dedup_keys_from [] l

/-- Distinct card names in ascending order: `sorted(grouped)` over the
keys of the `defaultdict` in `assemble_cards_by_name`. -/
def sortedNames (entries : List Entry) : List String :=
  (dedup_keys (entries.map Entry.name)).insertionSort nameLe

/-- One name's group in `assemble_cards_by_name` after sorting: the
entries carrying that name, in input order, stably sorted by
`variant_sort_key`. -/
def sortedGroup (entries : List Entry) (name : String) : List Entry :=
  (entries.filter (fun e => e.name = name)).insertionSort entryLe

/-- Final card record emitted by `assemble_cards_by_name` (dict key
`type` embedded as `type_`, `super` kept). -/
structure CardRecord where
  name : String := ""
  description : String := ""
  variantNumber : String := ""
  variants : List String := []
  variantImages : List String := []
  type_ : String := ""
  super : Option String := none
  energy : Int := 0
  power : Int := 0
  might : Int := 0
  colors : List String := []
  tags : List String := []
  releaseDate : String := ""
deriving Repr, DecidableEq, Inhabited

/-- The deduplication loop of `assemble_cards_by_name`: walk the sorted
group, skip variant codes already seen, and append code and image in
lock-step.  (Python appends `variant_entry["variantImage"] or ""`,
which on strings is the value itself.) -/
def collect_variants (seen : List String) : List Entry → List String × List String
  | [] => ([], [])
  | e :: rest =>
    if e.variantNumber ∈ seen then collect_variants seen rest
    else
      let p := collect_variants (e.variantNumber :: seen) rest
      (e.variantNumber :: p.1, e.variantImage :: p.2)

/-- Record construction for one sorted group in `assemble_cards_by_name`:
`base_variant` is the first sorted entry, `last_variant` the last; the
identifying fields (`name`, `variantNumber`, `releaseDate`) come from
`base_variant` and the descriptive fields from `last_variant`. -/
def makeCard (sorted_variants : List Entry) : CardRecord :=
  let base_variant := sorted_variants.headD default
  let last_variant := sorted_variants.getLastD default
  let p := collect_variants [] sorted_variants
  { name := base_variant.name
    description := last_variant.description
    variantNumber := base_variant.variantNumber
    variants := p.1
    variantImages := p.2
    type_ := last_variant.type_
    super := last_variant.super
    energy := last_variant.energy
    power := last_variant.power
    might := last_variant.might
    colors := last_variant.colors
    tags := last_variant.tags
    releaseDate := base_variant.releaseDate }

/-- From `official.py` (`assemble_cards_by_name`): group variant entries
by name (group contents keep input order), then emit one record per
distinct name in ascending name order. -/
def assemble_cards_by_name (entries : List Entry) : List CardRecord :=
  (sortedNames entries).map (fun name => makeCard (sortedGroup entries name))

/-- Python's `s.strip("/")`: remove leading and trailing `'/'`. -/
def strip_slashes (s : String) : String :=
  (((s.data.dropWhile (fun c => c = '/')).reverse.dropWhile
    (fun c => c = '/')).reverse).asString

/-- Python's `"/".join(parts)`. -/
def joinSlash : List String → String
  | [] => ""
  | [x] => x
  | x :: xs => x ++ "/" ++ joinSlash xs

/-- Destination path shared by both image publishers:
`img[/<setFolder stripped of slashes>]/<variantCode>.png`. -/
def image_relative_path (set_folder variant_number : String) : String :=
  let normalized_folder := strip_slashes set_folder
  joinSlash
    (["img"]
      ++ (if normalized_folder = "" then [] else [normalized_folder])
      ++ [variant_number ++ ".png"])

/-- Spaces uploader configuration: `self.prefix` (already `""` or
`"p/"`) and `self.public_base_url`. -/
structure SpacesCfg where
  keyPfx : String := ""
  publicBase : String := ""
deriving Repr, DecidableEq

/-- `SpacesUploader._prefixed_key`: strip leading slashes and prepend
the configured prefix. -/
def prefixed_key (cfg : SpacesCfg) (relative_path : String) : String :=
  cfg.keyPfx ++ (relative_path.data.dropWhile (fun c => c = '/')).asString

/-- Outcome of one `upload_variant_image` call: the returned
`(reference, isNewlyUploaded)` pair, the bucket contents afterwards,
and how many network image fetches the call performed. -/
structure PublishResult where
  ref : String
  isNew : Bool
  objects : List String
  fetches : Nat
deriving Repr, DecidableEq

/-- From `official.py` (`upload_variant_image`).  The bucket is the list
`objects` of existing keys; `object_exists` is membership of the
prefixed key; a successful `put_object` appends it.  `fetch_ok` is the
oracle for the `requests.get` of the image (False ⇒
`requests.RequestException` is raised and caught) and `store_ok` for
`put_object` (False ⇒ `BotoCoreError`/`ClientError`, also caught); in
both failure cases the code logs a warning and returns `(url, False)`. -/
def upload_variant_image (cfg : SpacesCfg) (fetch_ok store_ok : Bool)
    (url : Option String) (set_folder variant_number : String)
    (objects : List String) : PublishResult :=
  match url with
  | none => ⟨"", false, objects, 0⟩
  | some u =>
    if u = "" then ⟨"", false, objects, 0⟩
    else
      let relative_path := image_relative_path set_folder variant_number
      let key := prefixed_key cfg relative_path
      if key ∈ objects then
        ⟨cfg.publicBase ++ "/" ++ key, false, objects, 0⟩
      else if fetch_ok then
        if store_ok then
          ⟨cfg.publicBase ++ "/" ++ key, true, objects ++ [key], 1⟩
        else
          ⟨u, false, objects, 1⟩
      else
        ⟨u, false, objects, 1⟩

/-- Possible outcomes of `store_variant_image_static`, whose Python body
does not return a `(ref, isNew)` tuple on every path:
* `ok` — a `(ref, isNew)` tuple was returned;
* `bare` — the `if not url` path returns the bare string `""` instead
  of a tuple (slip in the source: `upload_variant_image` returns
  `("", False)` there);
* `raised` — an exception escaped the function. -/
inductive StaticResult where
  | ok (ref : String) (isNew : Bool) (files : List String) (fetches : Nat)
  | bare (value : String) (files : List String) (fetches : Nat)
  | raised (files : List String) (fetches : Nat)
deriving Repr, DecidableEq

/-- From `official.py` (`store_variant_image_static`).  The filesystem
under `output_root` is the list `files` of existing file paths;
`destination.exists()` is membership; a successful write appends.
`fetch_ok` is the oracle for `requests.get` (False ⇒
`requests.RequestException`, caught: the code returns `(url, False)`);
`write_ok` for opening/writing the destination file (False ⇒ `OSError`,
which the `except requests.RequestException` clause does NOT catch, so
it propagates as `raised`). -/
def store_variant_image_static (fetch_ok write_ok : Bool)
    (url : Option String) (set_folder variant_number : String)
    (files : List String) : StaticResult :=
  match url with
  | none => .bare "" files 0
  | some u =>
    if u = "" then .bare "" files 0
    else
      let destination := image_relative_path set_folder variant_number
      if destination ∈ files then
        .ok ("/" ++ destination) false files 0
      else if fetch_ok then
        if write_ok then .ok ("/" ++ destination) true (files ++ [destination]) 1
        else .raised files 1
      else
        .ok u false files 1

/-- `name in <dict keyed by name>` for a card list. -/
def containsName (cards : List CardRecord) (name : String) : Bool :=
  cards.any (fun c => c.name = name)

/-- `{card["name"]: card for card in cards}[name]`: a Python dict
comprehension keeps the last card with a given name.  Total via the
default record; every use below is guarded by `containsName`. -/
def lookupByName (cards : List CardRecord) (name : String) : CardRecord :=
  (cards.filter (fun c => c.name = name)).getLastD default

/-- Field-set comparison inside `compare_cards`: the fixed list
`name, description, variantNumber, variants, type, super, energy,
power, might, colors, tags, releaseDate` (note: NOT `variantImages`),
with list-valued fields compared as Python sets — order- and
multiplicity-insensitive, i.e. `toFinset` equality — and the rest by
equality.  The Python loop breaks at the first differing field; the
result equals this disjunction. -/
def cardsDiffer (old_card new_card : CardRecord) : Bool :=
  decide (old_card.name ≠ new_card.name)
  || decide (old_card.description ≠ new_card.description)
  || decide (old_card.variantNumber ≠ new_card.variantNumber)
  || decide (old_card.variants.toFinset ≠ new_card.variants.toFinset)
  || decide (old_card.type_ ≠ new_card.type_)
  || decide (old_card.super ≠ new_card.super)
  || decide (old_card.energy ≠ new_card.energy)
  || decide (old_card.power ≠ new_card.power)
  || decide (old_card.might ≠ new_card.might)
  || decide (old_card.colors.toFinset ≠ new_card.colors.toFinset)
  || decide (old_card.tags.toFinset ≠ new_card.tags.toFinset)
  || decide (old_card.releaseDate ≠ new_card.releaseDate)

/-- The change report returned by `compare_cards`. -/
structure ChangeReport where
  added : Nat
  updated : Nat
  removed : Nat
  unchanged : Nat
  total_variants_added : Nat
  total_variants_removed : Nat
  added_names : List String
  updated_names : List String
  removed_names : List String
  is_first_run : Bool
deriving Repr, DecidableEq

/-- From `official.py` (`compare_cards`).  `none` for `old_cards` is the
first run: everything counts as added (names NOT deduplicated there,
mirroring the list comprehension).  Otherwise both snapshots are keyed
by name (`dedup_keys` = dict key order, `lookupByName` = dict value,
last occurrence winning) and each new name is classified
added/updated/unchanged, each vanished old name removed.  The variant
totals add, per Python's `if new > old` guards, only positive
differences — `Nat` subtraction.  Python's final `max(0, ·)` is the
identity on these non-negative sums and is kept for fidelity. -/
def compare_cards (old_cards : Option (List CardRecord))
    (new_cards : List CardRecord) : ChangeReport :=
  match old_cards with
  | none =>
    { added := new_cards.length
      updated := 0
      removed := 0
      unchanged := 0
      total_variants_added := (new_cards.map (fun c => c.variants.length)).sum
      total_variants_removed := 0
      added_names := new_cards.map (fun c => c.name)
      updated_names := []
      removed_names := []
      is_first_run := true }
  | some old =>
    let newNames := dedup_keys (new_cards.map (fun c => c.name))
    let oldNames := dedup_keys (old.map (fun c => c.name))
    let added := newNames.filter (fun n => !containsName old n)
    let inBoth := newNames.filter (fun n => containsName old n)
    let updated := inBoth.filter
      (fun n => cardsDiffer (lookupByName old n) (lookupByName new_cards n))
    let unchanged := inBoth.filter
      (fun n => !cardsDiffer (lookupByName old n) (lookupByName new_cards n))
    let removed := oldNames.filter (fun n => !containsName new_cards n)
    let tva :=
      (added.map (fun n => (lookupByName new_cards n).variants.length)).sum
      + (updated.map (fun n =>
          (lookupByName new_cards n).variants.length
            - (lookupByName old n).variants.length)).sum
    let tvr :=
      (updated.map (fun n =>
          (lookupByName old n).variants.length
            - (lookupByName new_cards n).variants.length)).sum
      + (removed.map (fun n => (lookupByName old n).variants.length)).sum
    { added := added.length
      updated := updated.length
      removed := removed.length
      unchanged := unchanged.length
      total_variants_added := max 0 tva
      total_variants_removed := max 0 tvr
      added_names := added
      updated_names := updated
      removed_names := removed
      is_first_run := false }

namespace Scripts

/-- One element of `card["cardVariants"]`, restricted to the fields
`cards.py` reads.  A missing/non-string `variantNumber` or `imageUrl`
is `""` (the code's `.get(..., "")` default / `isinstance` guard);
`releaseDate` embeds `variant.set.releaseDate or ""`. -/
structure ScriptVariant where
  variantNumber : String := ""
  releaseDate : String := ""
  imageUrl : String := ""
deriving Repr, DecidableEq, Inhabited

/-- `get_release_date` from `cards.py`: `variant.set.releaseDate or ""`
(already collapsed into the field by the embedding). -/
def get_release_date (variant : ScriptVariant) : String :=
  variant.releaseDate

/-- `VARIANT_PARSE_PATTERN.match`: `^([A-Z]{3})-(\d{3})(.*)$` as
`(prefix group, number, suffix)`.  `[A-Z]` and `\d` are matched over
ASCII (Python's `\d` additionally accepts non-ASCII decimal digits,
which no catalog code contains); `.` does not match a newline, so a
suffix containing `'\n'` fails (Python's `$` would additionally allow
one trailing newline — also never present in catalog codes). -/
def parse_variant_number (variant_number : String) :
    Option (String × Nat × String) :=
  match variant_number.data with
  | c1 :: c2 :: c3 :: '-' :: d1 :: d2 :: d3 :: rest =>
    if ('A' ≤ c1 ∧ c1 ≤ 'Z') ∧ ('A' ≤ c2 ∧ c2 ≤ 'Z') ∧ ('A' ≤ c3 ∧ c3 ≤ 'Z')
        ∧ d1.isDigit ∧ d2.isDigit ∧ d3.isDigit ∧ ¬ rest.contains '\n' then
      some ([c1, c2, c3].asString,
        (d1.toNat - '0'.toNat) * 100 + (d2.toNat - '0'.toNat) * 10
          + (d3.toNat - '0'.toNat),
        rest.asString)
    else none
  | _ => none

/-- `SET_VARIANT_PATTERN.match`: `^[A-Z]{3}-\d{3}$`, i.e. a full
`parse_variant_number` match with an empty suffix. -/
def matches_set_variant (s : String) : Bool :=
  match parse_variant_number s with
  | some p => p.2.2 = ""
  | none => false

/-- Sort key of `sort_variants`: `(releaseDate, number, suffix, code)`
when the code parses, else `(releaseDate, 999999, code, code)`. -/
def script_sort_key (variant : ScriptVariant) : String × Nat × String × String :=
  match parse_variant_number variant.variantNumber with
  | some (_, number, suffix) =>
    (get_release_date variant, number, suffix, variant.variantNumber)
  | none =>
    (get_release_date variant, 999999, variant.variantNumber,
      variant.variantNumber)

/-- Python's tuple `<=` on `(str, int, str, str)`. -/
def skeyLe (a b : String × Nat × String × String) : Bool :=
  if strLtB a.1.data b.1.data then true
  else if strLtB b.1.data a.1.data then false
  else if decide (a.2.1 < b.2.1) then true
  else if decide (b.2.1 < a.2.1) then false
  else if strLtB a.2.2.1.data b.2.2.1.data then true
  else if strLtB b.2.2.1.data a.2.2.1.data then false
  else strLeB a.2.2.2.data b.2.2.2.data

/-- The relation under which `sort_variants` sorts. -/
def variantLe (a b : ScriptVariant) : Prop :=
  skeyLe (script_sort_key a) (script_sort_key b) = true

instance : DecidableRel variantLe := fun a b =>
  inferInstanceAs (Decidable (skeyLe (script_sort_key a) (script_sort_key b) = true))

/-- From `cards.py` (`sort_variants`): stable-sort the variants by
`script_sort_key`, drop entries with an empty (falsy) `variantNumber`,
and normalize each surviving code. -/
def sort_variants (variants : List ScriptVariant) : List String :=
  ((variants.insertionSort variantLe).filter
    (fun v => v.variantNumber ≠ "")).map
      (fun v => normalize_variant_number v.variantNumber)

/-- Sort key of `get_normal_variant_number`: `(releaseDate, number)`,
`999999` when the code does not parse (unreachable there: every
candidate already matched the strict pattern). -/
def normal_sort_key (variant : ScriptVariant) : String × Nat :=
  match parse_variant_number variant.variantNumber with
  | some (_, number, _) => (get_release_date variant, number)
  | none => (get_release_date variant, 999999)

/-- Python's tuple `<=` on `(str, int)`. -/
def nkeyLe (a b : String × Nat) : Bool :=
  if strLtB a.1.data b.1.data then true
  else if strLtB b.1.data a.1.data then false
  else decide (a.2 ≤ b.2)

/-- The relation under which `get_normal_variant_number` sorts its
pattern-matching candidates. -/
def normalLe (a b : ScriptVariant) : Prop :=
  nkeyLe (normal_sort_key a) (normal_sort_key b) = true

instance : DecidableRel normalLe := fun a b =>
  inferInstanceAs (Decidable (nkeyLe (normal_sort_key a) (normal_sort_key b) = true))

/-- One raw card object from the API payload, restricted to the fields
`simplify_card` reads; scalar fields are `none` when absent.  The dict
key `type` is embedded as `type_`.  `cardColors` holds each entry's
`cc.color.name` (`none` when missing or not a string); `tags` embeds
`normalize_list(card.get("tags"))` in its already-normalized list
form. -/
structure ScriptCard where
  name : Option String := none
  description : Option String := none
  cardVariants : List ScriptVariant := []
  type_ : Option String := none
  super : Option String := none
  energy : Option Int := none
  power : Option Int := none
  might : Option Int := none
  cardColors : List (Option String) := []
  tags : List String := []
deriving Repr, DecidableEq, Inhabited

/-- `extract_colors` from `cards.py`: the string color names, in order. -/
def extract_colors (card : ScriptCard) : List String :=
  card.cardColors.filterMap id

/-- The pattern-matching candidates of `get_normal_variant_number`:
variants whose `variantNumber` is a string matching the strict
`SET-NNN` pattern (no suffix). -/
def matching_variants (card : ScriptCard) : List ScriptVariant :=
  card.cardVariants.filter (fun v => matches_set_variant v.variantNumber)

/-- From `cards.py` (`get_normal_variant_number`): among the variants
matching the strict pattern, stable-sort by `(releaseDate, number)` and
return the first one's code; `None` when no variant matches. -/
def get_normal_variant_number (card : ScriptCard) : Option String :=
  let mv := matching_variants card
  if mv.isEmpty then none
  else some (((mv.insertionSort normalLe).headD default).variantNumber)

/-- The `variant_to_image` dict of `simplify_card` before the rune
special case: keyed by normalized code (entries with a falsy code
skipped), the last write winning. -/
def variant_image_map (variants : List ScriptVariant) (key : String) :
    Option String :=
  ((variants.filter (fun v =>
    v.variantNumber ≠ "" ∧ normalize_variant_number v.variantNumber = key)).getLast?).map
      (fun v => v.imageUrl)

/-- `variants_array.insert(variants_array.index(a) + 1, b)`: insert `b`
right after the first occurrence of `a`. -/
def insert_after_first (a b : String) : List String → List String
  | [] => []
  | x :: xs => if x = a then x :: b :: xs else x :: insert_after_first a b xs

/-- The six hard-coded rune base codes of `simplify_card`. -/
def rune_base_ids : List String :=
  ["OGN-042", "OGN-089", "OGN-214", "OGN-126", "OGN-166", "OGN-007"]

/-- Simplified card object produced by `simplify_card` (dict key `type`
embedded as `type_`). -/
structure ScriptRecord where
  name : Option String := none
  description : Option String := none
  variantNumber : Option String := none
  variants : List String := []
  variantImages : List String := []
  type_ : Option String := none
  super : Option String := none
  energy : Option Int := none
  power : Option Int := none
  might : Option Int := none
  colors : List String := []
  tags : List String := []
  releaseDate : Option String := none
deriving Repr, DecidableEq, Inhabited

/-- From `cards.py` (`simplify_card`): sort all variants; pick the
normal (primary) code, replacing it with the first pattern-matching
sorted code when its normalization is missing from the sorted list
(and keeping it unchanged when no sorted code matches either); promote
it to the front of the variant array; apply the hard-coded rune `"b"`
special case; then build `variantImages` by looking every code up in
the (possibly rune-extended) image dict, `""` when absent. -/
def simplify_card (card : ScriptCard) : ScriptRecord :=
  let all_variants := card.cardVariants
  let sorted_variant_numbers := sort_variants all_variants
  let original_normal := get_normal_variant_number card
  let normal_variant : Option String :=
    match original_normal.map normalize_variant_number with
    | some nv =>
      if nv ∈ sorted_variant_numbers then some nv
      else
        match sorted_variant_numbers.find? (fun vn => matches_set_variant vn) with
        | some vn => some vn
        | none => some nv
    | none => none
  let variants_array0 :=
    match normal_variant with
    | some nv =>
      if nv ∈ sorted_variant_numbers then nv :: sorted_variant_numbers.erase nv
      else sorted_variant_numbers
    | none => sorted_variant_numbers
  let base_lookup : String → String := fun k =>
    (variant_image_map all_variants k).getD ""
  let pr : List String × (String → String) :=
    match normal_variant with
    | some nv =>
      if card.type_ = some "Rune" ∧ nv ∈ rune_base_ids then
        let b_variant := nv ++ "b"
        if b_variant ∈ variants_array0 then (variants_array0, base_lookup)
        else
          let arr :=
            if (nv ++ "a") ∈ variants_array0 then
              insert_after_first (nv ++ "a") b_variant variants_array0
            else variants_array0 ++ [b_variant]
          (arr, fun k =>
            if k = b_variant then
              "https://cdn.piltoverarchive.com/cards/" ++ b_variant ++ ".webp"
            else base_lookup k)
      else (variants_array0, base_lookup)
    | none => (variants_array0, base_lookup)
  let release_date : Option String :=
    match original_normal with
    | some onv =>
      (all_variants.find? (fun v => v.variantNumber = onv)).map get_release_date
    | none => none
  { name := card.name
    description := card.description
    variantNumber := normal_variant
    variants := pr.1
    variantImages := pr.1.map pr.2
    type_ := card.type_
    super := card.super
    energy := card.energy
    power := card.power
    might := card.might
    colors := extract_colors card
    tags := card.tags
    releaseDate := release_date }

end Scripts

lemma strLtB_iff (a b : List Char) : strLtB a b = true ↔ List.Lex (· < ·) a b := by
  induction a generalizing b with
  | nil =>
    cases b with
    | nil =>
      simp only [strLtB]
      constructor
      · intro h; cases h
      · intro h; cases h
    | cons y ys =>
      simp only [strLtB]
      exact ⟨fun _ => List.Lex.nil, fun _ => trivial⟩
  | cons x xs ih =>
    cases b with
    | nil =>
      simp only [strLtB]
      constructor
      · intro h; cases h
      · intro h; cases h
    | cons y ys =>
      simp only [strLtB]
      by_cases hxy : x < y
      · simp only [hxy, if_true]
        exact ⟨fun _ => List.Lex.rel hxy, fun _ => trivial⟩
      · by_cases hyx : y < x
        · simp only [hxy, hyx, if_false, if_true]
          constructor
          · intro h; cases h
          · intro h
            cases h with
            | rel h' => exact absurd h' hxy
            | cons h' => exact absurd hyx (lt_irrefl x)
        · have hxy' : x = y := le_antisymm (not_lt.mp hyx) (not_lt.mp hxy)
          subst hxy'
          simp only [hxy, hyx, if_false]
          rw [ih ys]
          constructor
          · intro h; exact List.Lex.cons h
          · intro h
            cases h with
            | rel h' => exact absurd h' (lt_irrefl x)
            | cons h' => exact h'

lemma strLtB_trans {a b c : List Char} (h1 : strLtB a b = true)
    (h2 : strLtB b c = true) : strLtB a c = true := by
  rw [strLtB_iff] at *
  exact IsTrans.trans a b c h1 h2

lemma strLtB_asymm {a b : List Char} (h : strLtB a b = true) :
    strLtB b a = false := by
  rw [strLtB_iff] at h
  cases hb : strLtB b a with
  | false => rfl
  | true =>
    rw [strLtB_iff] at hb
    exact absurd hb (IsAsymm.asymm a b h)

lemma strLtB_conn {a b : List Char} (h1 : strLtB a b = false)
    (h2 : strLtB b a = false) : a = b := by
  rcases trichotomous_of (List.Lex ((· < ·) : Char → Char → Prop)) a b with h | h | h
  · rw [← strLtB_iff] at h; rw [h1] at h; cases h
  · exact h
  · rw [← strLtB_iff] at h; rw [h2] at h; cases h

lemma strLtB_irrefl (a : List Char) : strLtB a a = false := by
  cases h : strLtB a a with
  | false => rfl
  | true =>
    rw [strLtB_iff] at h
    exact absurd h (IsAsymm.asymm a a (strLtB_iff a a |>.mp (by rw [← strLtB_iff] at h; exact h)))

lemma strLeB_iff_not (a b : List Char) : strLeB a b = true ↔ strLtB b a = false := by
  unfold strLeB
  cases strLtB b a <;> simp

lemma strLeB_refl (a : List Char) : strLeB a a = true := by
  rw [strLeB_iff_not]
  exact strLtB_irrefl a

lemma strLeB_trans {a b c : List Char} (h1 : strLeB a b = true)
    (h2 : strLeB b c = true) : strLeB a c = true := by
  rw [strLeB_iff_not] at *
  cases hca : strLtB c a with
  | false => rfl
  | true =>
    exfalso
    cases hbc : strLtB b c with
    | true =>
      have := strLtB_trans hbc hca
      rw [h1] at this
      cases this
    | false =>
      have : b = c := strLtB_conn hbc h2
      subst this
      rw [hca] at h1
      cases h1

lemma strLeB_total (a b : List Char) :
    strLeB a b = true ∨ strLeB b a = true := by
  rw [strLeB_iff_not, strLeB_iff_not]
  cases h : strLtB b a with
  | false => left; rfl
  | true => right; exact strLtB_asymm h

lemma strLeB_antisymm {a b : List Char} (h1 : strLeB a b = true)
    (h2 : strLeB b a = true) : a = b := by
  rw [strLeB_iff_not] at h1 h2
  exact strLtB_conn h2 h1

lemma string_data_eq {s t : String} (h : s.data = t.data) : s = t :=
  congrArg String.mk h

/-- Transitivity of one lexicographic comparison step: strict
less on the component wins, equal components defer to the rest. -/
lemma lex_step_trans {α : Type} (lt : α → α → Bool)
    (ltTrans : ∀ {x y z : α}, lt x y = true → lt y z = true → lt x z = true)
    (ltConn : ∀ {x y : α}, lt x y = false → lt y x = false → x = y)
    {x y z : α} {nxy nyz nxz : Bool}
    (hnext : nxy = true → nyz = true → nxz = true)
    (h1 : (if lt x y then true else if lt y x then false else nxy) = true)
    (h2 : (if lt y z then true else if lt z y then false else nyz) = true) :
    (if lt x z then true else if lt z x then false else nxz) = true := by
  rcases Bool.eq_false_or_eq_true (lt x y) with hxy | hxy
  · rcases Bool.eq_false_or_eq_true (lt y z) with hyz | hyz
    · have hxz : lt x z = true := ltTrans hxy hyz
      simp [hxz]
    · rcases Bool.eq_false_or_eq_true (lt z y) with hzy | hzy
      · simp [hyz, hzy] at h2
      · have : y = z := ltConn hyz hzy
        subst this
        simp [hxy]
  · rcases Bool.eq_false_or_eq_true (lt y x) with hyx | hyx
    · simp [hxy, hyx] at h1
    · have hxyeq : x = y := ltConn hxy hyx
      subst hxyeq
      simp only [hxy] at h1 h2 ⊢
      rcases Bool.eq_false_or_eq_true (lt x z) with hxz | hxz
      · simp [hxz]
      · rcases Bool.eq_false_or_eq_true (lt z x) with hzx | hzx
        · simp [hxz, hzx] at h2
        · have : x = z := ltConn hxz hzx
          subst this
          simp only [hxz, hzx, Bool.false_eq_true, if_false] at h1 h2 ⊢
          exact hnext h1 h2

/-- Totality of one lexicographic comparison step. -/
lemma lex_step_total {α : Type} (lt : α → α → Bool)
    {x y : α} {nxy nyx : Bool}
    (hnext : nxy = true ∨ nyx = true) :
    (if lt x y then true else if lt y x then false else nxy) = true
    ∨ (if lt y x then true else if lt x y then false else nyx) = true := by
  rcases Bool.eq_false_or_eq_true (lt x y) with hxy | hxy
  · left; simp [hxy]
  · rcases Bool.eq_false_or_eq_true (lt y x) with hyx | hyx
    · right; simp [hyx]
    · simp only [hxy, hyx, if_false]
      exact hnext

lemma strLtS_trans {x y z : String} (h1 : strLtB x.data y.data = true)
    (h2 : strLtB y.data z.data = true) : strLtB x.data z.data = true :=
  strLtB_trans h1 h2

lemma strLtS_conn {x y : String} (h1 : strLtB x.data y.data = false)
    (h2 : strLtB y.data x.data = false) : x = y :=
  string_data_eq (strLtB_conn h1 h2)

lemma natLtB_trans {x y z : Nat} (h1 : decide (x < y) = true)
    (h2 : decide (y < z) = true) : decide (x < z) = true := by
  simp only [decide_eq_true_eq] at *
  omega

lemma natLtB_conn {x y : Nat} (h1 : decide (x < y) = false)
    (h2 : decide (y < x) = false) : x = y := by
  simp only [decide_eq_false_iff_not] at *
  omega

lemma keyLe_trans {a b c : String × String × Nat × String × String}
    (h1 : keyLe a b = true) (h2 : keyLe b c = true) : keyLe a c = true := by
  unfold keyLe at *
  refine lex_step_trans (fun s t => strLtB s.data t.data)
    (fun u v => strLtS_trans u v) (fun u v => strLtS_conn u v) ?_ h1 h2
  intro g1 g2
  refine lex_step_trans (fun s t => strLtB s.data t.data)
    (fun u v => strLtS_trans u v) (fun u v => strLtS_conn u v) ?_ g1 g2
  intro g3 g4
  refine lex_step_trans (fun m n => decide (m < n))
    (fun u v => natLtB_trans u v) (fun u v => natLtB_conn u v) ?_ g3 g4
  intro g5 g6
  refine lex_step_trans (fun s t => strLtB s.data t.data)
    (fun u v => strLtS_trans u v) (fun u v => strLtS_conn u v) ?_ g5 g6
  intro g7 g8
  exact strLeB_trans g7 g8

lemma keyLe_total (a b : String × String × Nat × String × String) :
    keyLe a b = true ∨ keyLe b a = true := by
  unfold keyLe
  refine lex_step_total (fun (s t : String) => strLtB s.data t.data) ?_
  refine lex_step_total (fun (s t : String) => strLtB s.data t.data) ?_
  refine lex_step_total (fun (m n : Nat) => decide (m < n)) ?_
  refine lex_step_total (fun (s t : String) => strLtB s.data t.data) ?_
  exact strLeB_total _ _


lemma nameLe_trans {a b c : String} (h1 : nameLe a b) (h2 : nameLe b c) :
    nameLe a c :=
  strLeB_trans h1 h2

lemma nameLe_total (a b : String) : nameLe a b ∨ nameLe b a :=
  strLeB_total a.data b.data

instance : IsTrans String nameLe := ⟨fun _ _ _ => nameLe_trans⟩

instance : IsTotal String nameLe := ⟨nameLe_total⟩

instance : IsTrans Entry entryLe := ⟨fun _ _ _ h1 h2 => keyLe_trans h1 h2⟩

instance : IsTotal Entry entryLe := ⟨fun _ _ => keyLe_total _ _⟩

namespace Scripts

lemma skeyLe_trans {a b c : String × Nat × String × String}
    (h1 : skeyLe a b = true) (h2 : skeyLe b c = true) : skeyLe a c = true := by
  unfold skeyLe at *
  refine lex_step_trans (fun (s t : String) => strLtB s.data t.data)
    (fun u v => strLtS_trans u v) (fun u v => strLtS_conn u v) ?_ h1 h2
  intro g1 g2
  refine lex_step_trans (fun (m n : Nat) => decide (m < n))
    (fun u v => natLtB_trans u v) (fun u v => natLtB_conn u v) ?_ g1 g2
  intro g3 g4
  refine lex_step_trans (fun (s t : String) => strLtB s.data t.data)
    (fun u v => strLtS_trans u v) (fun u v => strLtS_conn u v) ?_ g3 g4
  intro g5 g6
  exact strLeB_trans g5 g6

lemma skeyLe_total (a b : String × Nat × String × String) :
    skeyLe a b = true ∨ skeyLe b a = true := by
  unfold skeyLe
  refine lex_step_total (fun (s t : String) => strLtB s.data t.data) ?_
  refine lex_step_total (fun (m n : Nat) => decide (m < n)) ?_
  refine lex_step_total (fun (s t : String) => strLtB s.data t.data) ?_
  exact strLeB_total _ _

lemma nkeyLe_trans {a b c : String × Nat}
    (h1 : nkeyLe a b = true) (h2 : nkeyLe b c = true) : nkeyLe a c = true := by
  unfold nkeyLe at *
  refine lex_step_trans (fun (s t : String) => strLtB s.data t.data)
    (fun u v => strLtS_trans u v) (fun u v => strLtS_conn u v) ?_ h1 h2
  intro g1 g2
  simp only [decide_eq_true_eq] at *
  omega

lemma nkeyLe_total (a b : String × Nat) :
    nkeyLe a b = true ∨ nkeyLe b a = true := by
  unfold nkeyLe
  refine lex_step_total (fun (s t : String) => strLtB s.data t.data) ?_
  simp only [decide_eq_true_eq]
  omega

instance : IsTrans ScriptVariant variantLe := ⟨fun _ _ _ h1 h2 => skeyLe_trans h1 h2⟩

instance : IsTotal ScriptVariant variantLe := ⟨fun _ _ => skeyLe_total _ _⟩

instance : IsTrans ScriptVariant normalLe := ⟨fun _ _ _ h1 h2 => nkeyLe_trans h1 h2⟩

instance : IsTotal ScriptVariant normalLe := ⟨fun _ _ => nkeyLe_total _ _⟩

end Scripts

/-! ### Facts about variant-code normalization (C6, C5) -/

lemma data_asString (l : List Char) : (l.asString).data = l := rfl

lemma normalize_eq_of_ne (s : String) (h : s.data.getLast? ≠ some '*') :
    normalize_variant_number s = s := by
  unfold normalize_variant_number
  split
  · next heq => exact absurd heq h
  · rfl

lemma normalize_getLast_ne_star (s : String) :
    (normalize_variant_number s).data.getLast? ≠ some '*' := by
  unfold normalize_variant_number
  split
  · next heq =>
    show ((s.data.dropLast ++ ['s']).asString).data.getLast? ≠ some '*'
    rw [data_asString, List.getLast?_concat]
    simp
  · next hne =>
    intro hcon
    exact hne hcon

/-- C6: variant-code normalization is idempotent — a code whose last
character is not `'*'` (Python's `endswith("*")` being false) is
returned unchanged; `"OGN-308*"` maps to `"OGN-308s"`; applying the
normalization twice equals applying it once; and the copy of the
function in `scripts/cards.py` agrees with the worker's. -/
theorem c6_normalize_variant_number_idempotent :
    (∀ s : String, s.data.getLast? ≠ some '*' → normalize_variant_number s = s)
    ∧ normalize_variant_number "OGN-308*" = "OGN-308s"
    ∧ (∀ s : String,
        normalize_variant_number (normalize_variant_number s)
          = normalize_variant_number s)
    ∧ (∀ s : String, Scripts.normalize_variant_number s = normalize_variant_number s) :=
  ⟨normalize_eq_of_ne, by decide,
    fun s => normalize_eq_of_ne _ (normalize_getLast_ne_star s),
    fun _ => rfl⟩

/-- C6 witness: the first conjunct applied at the already-normalized
code `"OGN-308"`. -/
theorem c6_normalize_variant_number_idempotent_witness :
    normalize_variant_number "OGN-308" = "OGN-308" :=
  c6_normalize_variant_number_idempotent.1 "OGN-308" (by decide)

lemma string_ne_empty_of_data {s : String} (h : s.data ≠ []) : s ≠ "" := by
  intro he
  subst he
  exact h rfl

lemma normalize_ne_empty {s : String} (h : s ≠ "") :
    normalize_variant_number s ≠ "" := by
  unfold normalize_variant_number
  split
  · apply string_ne_empty_of_data
    rw [data_asString]
    simp
  · exact h

lemma toDigitsCore_ne_nil (b : Nat) :
    ∀ (f n : Nat) (ds : List Char), ds ≠ [] → Nat.toDigitsCore b f n ds ≠ []
  | 0, _, _, h => h
  | f + 1, n, ds, h => by
    rw [Nat.toDigitsCore]
    split
    · simp
    · exact toDigitsCore_ne_nil b f (n / b) _ (by simp)

lemma nat_repr_ne_empty (n : Nat) : Nat.repr n ≠ "" := by
  apply string_ne_empty_of_data
  show Nat.toDigits 10 n ≠ []
  unfold Nat.toDigits
  rw [Nat.toDigitsCore]
  split
  · simp
  · exact toDigitsCore_ne_nil 10 n (n / 10) _ (by simp)

lemma int_repr_ne_empty (i : Int) : Int.repr i ≠ "" := by
  cases i with
  | ofNat m => exact nat_repr_ne_empty m
  | negSucc m =>
    show ("-" ++ Nat.repr (m + 1)) ≠ ""
    apply string_ne_empty_of_data
    show '-' :: (Nat.repr (m + 1)).data ≠ []
    simp

lemma concat_dash_ne_empty (a b : String) : a ++ "-" ++ b ≠ "" := by
  apply string_ne_empty_of_data
  show a.data ++ ['-'] ++ b.data ≠ []
  simp

/-- C5 counterexample: a raw record whose `publicCode` is `"/298"`
takes the `publicCode` branch (`split("/")[0]` is the empty string) and
`build_variant_number` returns `""`, so the constructed variant code is
NOT always non-empty. -/
theorem c5_build_variant_number_empty_counterexample :
    build_variant_number { publicCode := some "/298" } = "" := by decide

/-- C5 (amended): `build_variant_number` returns the fallback
`"UNKNOWN"` when no identifying field exists, and the result is
non-empty provided the identifying field it selects is itself
non-empty: the part of `publicCode` before the first `'/'` when that
branch fires, and the `id` string when it is the chosen fallback (the
set+collector composition and the int coercion are always non-empty). -/
theorem c5_build_variant_number_nonempty :
    build_variant_number {} = "UNKNOWN"
    ∧ ∀ card : RawCard,
        (∀ pc, card.publicCode = some pc → pc.data.contains '/' = true →
          (pc.data.takeWhile (fun c => c ≠ '/')).asString ≠ "")
        → (∀ s, card.id = some (Sum.inl s) → s ≠ "")
        → build_variant_number card ≠ "" := by
  refine ⟨by decide, ?_⟩
  intro card h1 h2
  have hfb : (∀ s, card.id = some (Sum.inl s) → s ≠ "") →
      build_variant_number_fallback card ≠ "" := by
    intro hid
    unfold build_variant_number_fallback
    split
    · exact normalize_ne_empty (concat_dash_ne_empty _ _)
    · split
      · next s heq => exact normalize_ne_empty (hid s heq)
      · exact normalize_ne_empty (int_repr_ne_empty _)
      · decide
  unfold build_variant_number
  split
  · next pc heq =>
    split
    · next hcon => exact normalize_ne_empty (h1 pc heq hcon)
    · exact hfb h2
  · exact hfb h2

/-- C5 witness: the amended nonemptiness applied to a concrete record
built from set id and collector number. -/
theorem c5_build_variant_number_nonempty_witness :
    build_variant_number { setId := some "OGN", collectorNumber := some 66 } ≠ "" :=
  c5_build_variant_number_nonempty.2
    { setId := some "OGN", collectorNumber := some 66 }
    (fun _ h _ => Option.noConfusion h)
    (fun _ h => Option.noConfusion h)

/-! ### Facts about the worker's variant ordering (C2) -/

lemma takeWhile_ne_eq_self {c : Char} : ∀ {l : List Char},
    l.contains c = false → l.takeWhile (fun x => x ≠ c) = l
  | [], _ => rfl
  | x :: xs, h => by
    simp only [List.contains_cons, Bool.or_eq_false_iff] at h
    have hx : x ≠ c := by
      intro he
      subst he
      simp at h
    rw [List.takeWhile_cons, if_pos (decide_eq_true hx), takeWhile_ne_eq_self h.2]

/-- C2 counterexample: the claim says a malformed (dashless) code sorts
with the key `(sentinel-date, code, 0, lowercased-code, code)`; the
code instead keeps the entry's own `releaseDate` and `setId`.  For the
entry with code `"123"`, set `"OGN"` and release `"2025-10-31"` the
actual key differs from the claimed one. -/
theorem c2_variant_sort_key_counterexample :
    variant_sort_key
        { variantNumber := "123", setId := "OGN", releaseDate := "2025-10-31" }
      = ("2025-10-31", "OGN", 0, "123", "123")
    ∧ ("2025-10-31", "OGN", 0, "123", ("123" : String))
      ≠ ("9999-12-31", "123", 0, "123", "123") := by
  constructor
  · decide
  · decide

/-- C2 (amended): variants sort ascending (and as a permutation of the
input) under the tuple key `(releaseDate, setId, number, suffix,
code)`; a code without a dash yields numeric part `0` and suffix = the
whole lowercased code, keeping the entry's own `releaseDate` and its
`setId` (which falls back to the full code when empty) — not a
sentinel.  The spec's three-variant example sorts as
`OGN-010 (2024), OGN-002 (2025), OGN-010a (2025)`. -/
theorem c2_variant_sort_ordering :
    (∀ l : List Entry,
      List.Sorted entryLe (l.insertionSort entryLe)
      ∧ List.Perm (l.insertionSort entryLe) l)
    ∧ (∀ e : Entry, e.variantNumber.data.contains '-' = false →
        variant_sort_key e
          = (e.releaseDate,
              (if e.setId = "" then e.variantNumber else e.setId), 0,
              (e.variantNumber.data.map Char.toLower).asString,
              e.variantNumber))
    ∧ (([{ name := "C", variantNumber := "OGN-010a", releaseDate := "2025-01-01", setId := "OGN" },
         { name := "C", variantNumber := "OGN-002", releaseDate := "2025-01-01", setId := "OGN" },
         { name := "C", variantNumber := "OGN-010", releaseDate := "2024-01-01", setId := "OGN" }] : List Entry).insertionSort entryLe).map
          (fun e => e.variantNumber)
        = ["OGN-010", "OGN-002", "OGN-010a"] := by
  refine ⟨fun l => ⟨List.sorted_insertionSort entryLe l, List.perm_insertionSort entryLe l⟩, ?_, by decide⟩
  intro e h
  unfold variant_sort_key parse_variant_components
  rw [h]
  simp only [if_true, Bool.false_eq_true]
  rw [takeWhile_ne_eq_self h]
  rfl

/-- C2 witness: the dashless-code clause applied at the same concrete
entry as the counterexample. -/
theorem c2_variant_sort_ordering_witness :
    variant_sort_key
        { variantNumber := "123", setId := "OGN", releaseDate := "2025-10-31" }
      = ("2025-10-31", "OGN", 0, "123", "123") :=
  (c2_variant_sort_ordering.2.1
    { variantNumber := "123", setId := "OGN", releaseDate := "2025-10-31" }
    (by decide)).trans (by decide)

/-! ### Facts about grouping by name (C1, C9, C10) -/

lemma keyLe_refl (a : String × String × Nat × String × String) :
    keyLe a a = true := by
  unfold keyLe
  simp [strLtB_irrefl, strLeB_refl]

lemma entryLe_refl (e : Entry) : entryLe e e :=
  keyLe_refl _

lemma mem_dedup_keys_from :
    ∀ {l seen : List String} {a : String},
      a ∈ dedup_keys_from seen l ↔ a ∈ l ∧ a ∉ seen
  | [], seen, a => by simp [dedup_keys_from]
  | x :: xs, seen, a => by
    unfold dedup_keys_from
    by_cases hx : x ∈ seen
    · rw [if_pos hx, mem_dedup_keys_from]
      constructor
      · exact fun h => ⟨List.mem_cons_of_mem x h.1, h.2⟩
      · rintro ⟨hm, hns⟩
        rcases List.mem_cons.mp hm with rfl | hm'
        · exact absurd hx hns
        · exact ⟨hm', hns⟩
    · rw [if_neg hx]
      constructor
      · intro h
        rcases List.mem_cons.mp h with rfl | h'
        · exact ⟨List.mem_cons_self a xs, hx⟩
        · have := mem_dedup_keys_from.mp h'
          refine ⟨List.mem_cons_of_mem x this.1, fun hs => this.2 (List.mem_cons_of_mem x hs)⟩
      · rintro ⟨hm, hns⟩
        rcases List.mem_cons.mp hm with rfl | hm'
        · exact List.mem_cons_self a _
        · by_cases hax : a = x
          · subst hax
            exact List.mem_cons_self a _
          · refine List.mem_cons_of_mem x (mem_dedup_keys_from.mpr ⟨hm', ?_⟩)
            intro hs
            rcases List.mem_cons.mp hs with h1 | h1
            · exact hax h1
            · exact hns h1

lemma mem_dedup_keys {l : List String} {a : String} :
    a ∈ dedup_keys l ↔ a ∈ l := by
  unfold dedup_keys
  rw [mem_dedup_keys_from]
  simp

lemma nodup_dedup_keys_from :
    ∀ {l seen : List String}, (dedup_keys_from seen l).Nodup
  | [], seen => List.nodup_nil
  | x :: xs, seen => by
    unfold dedup_keys_from
    by_cases hx : x ∈ seen
    · rw [if_pos hx]
      exact nodup_dedup_keys_from
    · rw [if_neg hx]
      refine List.nodup_cons.mpr ⟨?_, nodup_dedup_keys_from⟩
      intro hmem
      exact (mem_dedup_keys_from.mp hmem).2 (List.mem_cons_self x seen)

lemma mem_sortedNames_iff {entries : List Entry} {name : String} :
    name ∈ sortedNames entries ↔ ∃ e ∈ entries, e.name = name := by
  unfold sortedNames
  rw [List.mem_insertionSort, mem_dedup_keys]
  constructor
  · intro h
    rcases List.mem_map.mp h with ⟨e, he, hn⟩
    exact ⟨e, he, hn⟩
  · rintro ⟨e, he, hn⟩
    exact List.mem_map.mpr ⟨e, he, hn⟩

lemma mem_sortedGroup {entries : List Entry} {name : String} {e : Entry} :
    e ∈ sortedGroup entries name ↔ e ∈ entries ∧ e.name = name := by
  unfold sortedGroup
  rw [List.mem_insertionSort, List.mem_filter]
  simp

lemma sortedGroup_sorted (entries : List Entry) (name : String) :
    List.Sorted entryLe (sortedGroup entries name) :=
  List.sorted_insertionSort entryLe _

lemma sortedGroup_ne_nil {entries : List Entry} {name : String}
    (h : ∃ e ∈ entries, e.name = name) : sortedGroup entries name ≠ [] := by
  rcases h with ⟨e, he, hn⟩
  intro hnil
  have : e ∈ sortedGroup entries name := mem_sortedGroup.mpr ⟨he, hn⟩
  rw [hnil] at this
  exact List.not_mem_nil e this

lemma headD_mem {α : Type} [Inhabited α] {l : List α} (h : l ≠ []) :
    l.headD default ∈ l := by
  cases l with
  | nil => exact absurd rfl h
  | cons x xs => exact List.mem_cons_self x xs

lemma getLastD_mem {α : Type} : ∀ (l : List α) (d : α), l ≠ [] → l.getLastD d ∈ l
  | [], _, h => absurd rfl h
  | [x], d, _ => by simp
  | x :: y :: xs, d, _ => by
    rw [List.getLastD_cons]
    exact List.mem_cons_of_mem x (getLastD_mem (y :: xs) x (by simp))

lemma pairwise_headD_le {α : Type} [Inhabited α] {r : α → α → Prop}
    (hrefl : ∀ a, r a a) {l : List α} (hp : l.Pairwise r) :
    ∀ a ∈ l, r (l.headD default) a := by
  cases l with
  | nil => intro a ha; exact absurd ha (List.not_mem_nil a)
  | cons x xs =>
    intro a ha
    rcases List.mem_cons.mp ha with rfl | ha'
    · exact hrefl a
    · exact (List.pairwise_cons.mp hp).1 a ha'

lemma pairwise_le_getLastD {α : Type} {r : α → α → Prop}
    (hrefl : ∀ a, r a a) :
    ∀ (l : List α) (d : α), l.Pairwise r → ∀ a ∈ l, r a (l.getLastD d)
  | [], _, _, a, ha => absurd ha (List.not_mem_nil a)
  | x :: xs, d, hp, a, ha => by
    rw [List.getLastD_cons]
    cases xs with
    | nil =>
      rcases List.mem_cons.mp ha with rfl | ha'
      · exact hrefl a
      · exact absurd ha' (List.not_mem_nil a)
    | cons y ys =>
      rcases List.mem_cons.mp ha with rfl | ha'
      · exact (List.pairwise_cons.mp hp).1 _
          (getLastD_mem (y :: ys) a (by simp))
      · exact pairwise_le_getLastD hrefl (y :: ys) x
          (List.pairwise_cons.mp hp).2 a ha'

/-- C1 counterexample: with two same-name variants released 2024 and
2025, the produced record's `releaseDate` is the FIRST sorted variant's
`"2024-01-01"`, while the last sorted variant — the representative the
claim says `releaseDate` is copied from — carries `"2025-01-01"`. -/
theorem c1_assemble_releaseDate_counterexample :
    (assemble_cards_by_name
      [ { name := "X", variantNumber := "OGN-002", releaseDate := "2025-01-01", setId := "OGN" },
        { name := "X", variantNumber := "OGN-001", releaseDate := "2024-01-01", setId := "OGN" } ]).map
          (fun c => c.releaseDate) = ["2024-01-01"]
    ∧ ((sortedGroup
      [ { name := "X", variantNumber := "OGN-002", releaseDate := "2025-01-01", setId := "OGN" },
        { name := "X", variantNumber := "OGN-001", releaseDate := "2024-01-01", setId := "OGN" } ] "X").getLastD default).releaseDate
        = "2025-01-01" := by
  constructor
  · decide
  · decide

/-- C1 (amended): every record produced by `assemble_cards_by_name`
takes `variantNumber` AND `releaseDate` (and `name`) from the first
sorted variant of its group — an entry `b` that is `entryLe`-minimal in
the group — while `description`, `type`, `super`, `energy`, `power`,
`might`, `colors` and `tags` come from the last sorted variant `l`,
`entryLe`-maximal in the group.  (The claim's only error: it said
`releaseDate` comes from the last sorted variant.) -/
theorem c1_assemble_field_provenance :
    ∀ (entries : List Entry), ∀ rec ∈ assemble_cards_by_name entries,
      ∃ b l : Entry,
        b ∈ sortedGroup entries rec.name
        ∧ l ∈ sortedGroup entries rec.name
        ∧ (∀ e ∈ sortedGroup entries rec.name, entryLe b e ∧ entryLe e l)
        ∧ rec.name = b.name
        ∧ rec.variantNumber = b.variantNumber
        ∧ rec.releaseDate = b.releaseDate
        ∧ rec.description = l.description
        ∧ rec.type_ = l.type_
        ∧ rec.super = l.super
        ∧ rec.energy = l.energy
        ∧ rec.power = l.power
        ∧ rec.might = l.might
        ∧ rec.colors = l.colors
        ∧ rec.tags = l.tags := by
  intro entries rec hrec
  rcases List.mem_map.mp hrec with ⟨name, hname, hrc⟩
  subst hrc
  have hne : sortedGroup entries name ≠ [] :=
    sortedGroup_ne_nil (mem_sortedNames_iff.mp hname)
  have hbmem : (sortedGroup entries name).headD default ∈ sortedGroup entries name :=
    headD_mem hne
  have hbname : ((sortedGroup entries name).headD default).name = name :=
    (mem_sortedGroup.mp hbmem).2
  have hgr : sortedGroup entries (makeCard (sortedGroup entries name)).name
      = sortedGroup entries name := by
    show sortedGroup entries ((sortedGroup entries name).headD default).name
        = sortedGroup entries name
    rw [hbname]
  have hsorted : List.Pairwise entryLe (sortedGroup entries name) :=
    sortedGroup_sorted entries name
  refine ⟨(sortedGroup entries name).headD default,
    (sortedGroup entries name).getLastD default, ?_, ?_, ?_, rfl, rfl, rfl,
    rfl, rfl, rfl, rfl, rfl, rfl, rfl, rfl⟩
  · rw [hgr]; exact hbmem
  · rw [hgr]; exact getLastD_mem _ _ hne
  · rw [hgr]
    intro e he
    exact ⟨pairwise_headD_le entryLe_refl hsorted e he,
      pairwise_le_getLastD entryLe_refl _ _ hsorted e he⟩

/-- C1 witness: applying the provenance theorem to a one-entry catalog
pins the produced record's `variantNumber` to that entry's code. -/
theorem c1_assemble_field_provenance_witness :
    ((assemble_cards_by_name
      [{ name := "X", variantNumber := "OGN-001", releaseDate := "2024-01-01", setId := "OGN" }]).headD
        default).variantNumber = "OGN-001" := by
  obtain ⟨b, l, hb, -, -, -, hvn, -⟩ :=
    c1_assemble_field_provenance
      [{ name := "X", variantNumber := "OGN-001", releaseDate := "2024-01-01", setId := "OGN" }]
      ((assemble_cards_by_name
        [{ name := "X", variantNumber := "OGN-001", releaseDate := "2024-01-01", setId := "OGN" }]).headD
          default)
      (by decide)
  rw [hvn]
  have hm := (mem_sortedGroup.mp hb).1
  rcases List.mem_singleton.mp hm with rfl
  rfl

lemma makeCard_name {entries : List Entry} {name : String}
    (h : name ∈ sortedNames entries) :
    (makeCard (sortedGroup entries name)).name = name := by
  have hne : sortedGroup entries name ≠ [] :=
    sortedGroup_ne_nil (mem_sortedNames_iff.mp h)
  exact (mem_sortedGroup.mp (headD_mem hne)).2

lemma assemble_names (entries : List Entry) :
    (assemble_cards_by_name entries).map (fun c => c.name)
      = sortedNames entries := by
  unfold assemble_cards_by_name
  rw [List.map_map]
  have : ∀ name ∈ sortedNames entries,
      ((fun c => CardRecord.name c) ∘ fun name => makeCard (sortedGroup entries name)) name
        = id name := by
    intro name h
    exact makeCard_name h
  rw [List.map_congr_left this, List.map_id]

lemma sortedNames_nodup (entries : List Entry) :
    (sortedNames entries).Nodup := by
  unfold sortedNames
  exact (List.perm_insertionSort nameLe _).nodup_iff.mpr nodup_dedup_keys_from

/-- C10: the final catalog has exactly one record per distinct input
name — the record names are exactly the distinct entry names, without
duplicates — and the records appear in strictly ascending lexicographic
order of name. -/
theorem c10_assemble_one_record_per_name_sorted (entries : List Entry) :
    (assemble_cards_by_name entries).map (fun c => c.name) = sortedNames entries
    ∧ ((assemble_cards_by_name entries).map (fun c => c.name)).Nodup
    ∧ List.Pairwise (fun a b => nameLe a b ∧ a ≠ b)
        ((assemble_cards_by_name entries).map (fun c => c.name))
    ∧ (∀ name, (∃ rec ∈ assemble_cards_by_name entries, rec.name = name)
        ↔ ∃ e ∈ entries, e.name = name) := by
  have hnames := assemble_names entries
  have hnodup : ((assemble_cards_by_name entries).map (fun c => c.name)).Nodup := by
    rw [hnames]; exact sortedNames_nodup entries
  refine ⟨hnames, hnodup, ?_, ?_⟩
  · have hsorted : List.Pairwise nameLe
        ((assemble_cards_by_name entries).map (fun c => c.name)) := by
      rw [hnames]
      exact List.sorted_insertionSort nameLe _
    exact hsorted.and hnodup
  · intro name
    constructor
    · rintro ⟨rec, hrec, rfl⟩
      have : rec.name ∈ sortedNames entries := by
        rw [← hnames]
        exact List.mem_map_of_mem _ hrec
      exact mem_sortedNames_iff.mp this
    · intro h
      have hn : name ∈ sortedNames entries := mem_sortedNames_iff.mpr h
      have : name ∈ (assemble_cards_by_name entries).map (fun c => c.name) := by
        rw [hnames]; exact hn
      rcases List.mem_map.mp this with ⟨rec, hrec, hrn⟩
      exact ⟨rec, hrec, hrn⟩

lemma collect_variants_cons_mem {seen : List String} {e : Entry}
    {rest : List Entry} (h : e.variantNumber ∈ seen) :
    collect_variants seen (e :: rest) = collect_variants seen rest := by
  simp only [collect_variants]
  rw [if_pos h]

lemma collect_variants_cons_not_mem {seen : List String} {e : Entry}
    {rest : List Entry} (h : e.variantNumber ∉ seen) :
    collect_variants seen (e :: rest)
      = (e.variantNumber :: (collect_variants (e.variantNumber :: seen) rest).1,
         e.variantImage :: (collect_variants (e.variantNumber :: seen) rest).2) := by
  simp only [collect_variants]
  rw [if_neg h]

lemma dedup_keys_from_cons_mem {seen : List String} {x : String}
    {xs : List String} (h : x ∈ seen) :
    dedup_keys_from seen (x :: xs) = dedup_keys_from seen xs := by
  simp only [dedup_keys_from]
  rw [if_pos h]

lemma dedup_keys_from_cons_not_mem {seen : List String} {x : String}
    {xs : List String} (h : x ∉ seen) :
    dedup_keys_from seen (x :: xs) = x :: dedup_keys_from (x :: seen) xs := by
  simp only [dedup_keys_from]
  rw [if_neg h]

lemma collect_variants_fst :
    ∀ (seen : List String) (l : List Entry),
      (collect_variants seen l).1
        = dedup_keys_from seen (l.map (fun e => e.variantNumber))
  | _, [] => rfl
  | seen, e :: rest => by
    rw [List.map_cons]
    by_cases h : e.variantNumber ∈ seen
    · rw [collect_variants_cons_mem h, dedup_keys_from_cons_mem h]
      exact collect_variants_fst seen rest
    · rw [collect_variants_cons_not_mem h, dedup_keys_from_cons_not_mem h]
      exact congrArg (e.variantNumber :: ·) (collect_variants_fst _ rest)

lemma collect_variants_length :
    ∀ (seen : List String) (l : List Entry),
      (collect_variants seen l).1.length = (collect_variants seen l).2.length
  | _, [] => rfl
  | seen, e :: rest => by
    by_cases h : e.variantNumber ∈ seen
    · rw [collect_variants_cons_mem h]
      exact collect_variants_length seen rest
    · rw [collect_variants_cons_not_mem h]
      simpa using collect_variants_length (e.variantNumber :: seen) rest

lemma collect_variants_align :
    ∀ (seen : List String) (l : List Entry) (i : Nat) (c img : String),
      (collect_variants seen l).1.get? i = some c →
      (collect_variants seen l).2.get? i = some img →
      ∃ e ∈ l, e.variantNumber = c ∧ img = e.variantImage
  | _, [], i, _, _, h1, _ => by simp [collect_variants] at h1
  | seen, e :: rest, i, c, img, h1, h2 => by
    by_cases h : e.variantNumber ∈ seen
    · rw [collect_variants_cons_mem h] at h1 h2
      rcases collect_variants_align seen rest i c img h1 h2 with ⟨e2, he2, hv, hi⟩
      exact ⟨e2, List.mem_cons_of_mem e he2, hv, hi⟩
    · rw [collect_variants_cons_not_mem h] at h1 h2
      cases i with
      | zero =>
        simp only [List.get?] at h1 h2
        cases h1
        cases h2
        exact ⟨e, List.mem_cons_self e rest, rfl, rfl⟩
      | succ j =>
        simp only [List.get?] at h1 h2
        rcases collect_variants_align (e.variantNumber :: seen) rest j c img h1 h2 with
          ⟨e2, he2, hv, hi⟩
        exact ⟨e2, List.mem_cons_of_mem e he2, hv, hi⟩

lemma sortedGroup_makeCard_name {entries : List Entry} {name : String}
    (h : name ∈ sortedNames entries) :
    sortedGroup entries (makeCard (sortedGroup entries name)).name
      = sortedGroup entries name := by
  show sortedGroup entries ((sortedGroup entries name).headD default).name
      = sortedGroup entries name
  rw [(mem_sortedGroup.mp (headD_mem
    (sortedGroup_ne_nil (mem_sortedNames_iff.mp h)))).2]

/-- C9 counterexample: in the multi-image pipeline, a card holding the
two variants `OGN-308*` and `OGN-308s` (which normalize to the same
code) produces the variant list `["OGN-308s", "OGN-308s"]` — the claim
that every produced record's `variants` has no duplicates (first
occurrence kept) fails for `simplify_card`, which never deduplicates. -/
theorem c9_simplify_card_duplicates_counterexample :
    (Scripts.simplify_card
      { cardVariants :=
          [ { variantNumber := "OGN-308*", releaseDate := "2025-01-01", imageUrl := "u1" },
            { variantNumber := "OGN-308s", releaseDate := "2025-01-01", imageUrl := "u2" } ] }).variants
      = ["OGN-308s", "OGN-308s"]
    ∧ ¬ (Scripts.simplify_card
      { cardVariants :=
          [ { variantNumber := "OGN-308*", releaseDate := "2025-01-01", imageUrl := "u1" },
            { variantNumber := "OGN-308s", releaseDate := "2025-01-01", imageUrl := "u2" } ] }).variants.Nodup := by
  constructor
  · decide
  · decide

/-- C9 (amended): in the worker's `assemble_cards_by_name` every record
satisfies the full invariant — `variants` and `variantImages` have
equal length, `variants` is the duplicate-free (first occurrence kept)
list of the group's codes in sorted order, it contains exactly the
distinct codes of the group, and position `i` of `variantImages` is the
image of a group entry carrying the code at position `i` of `variants`.
In `simplify_card` (the multi-image pipeline) only the length/alignment
invariant holds: `variantImages` is built pointwise from `variants`;
that list may contain duplicates and is reordered (primary first). -/
theorem c9_variants_images_alignment :
    (∀ (entries : List Entry), ∀ rec ∈ assemble_cards_by_name entries,
      rec.variants.length = rec.variantImages.length
      ∧ rec.variants.Nodup
      ∧ rec.variants
          = dedup_keys ((sortedGroup entries rec.name).map (fun e => e.variantNumber))
      ∧ (∀ c, c ∈ rec.variants
          ↔ ∃ e ∈ entries, e.name = rec.name ∧ e.variantNumber = c)
      ∧ (∀ (i : Nat) (c img : String),
          rec.variants.get? i = some c → rec.variantImages.get? i = some img →
          ∃ e ∈ sortedGroup entries rec.name,
            e.variantNumber = c ∧ img = e.variantImage))
    ∧ (∀ card : Scripts.ScriptCard,
        (Scripts.simplify_card card).variants.length
          = (Scripts.simplify_card card).variantImages.length) := by
  constructor
  · intro entries rec hrec
    rcases List.mem_map.mp hrec with ⟨name, hname, hrc⟩
    subst hrc
    have hgr := sortedGroup_makeCard_name hname
    have hfst : (makeCard (sortedGroup entries name)).variants
        = (collect_variants [] (sortedGroup entries name)).1 := rfl
    have hsnd : (makeCard (sortedGroup entries name)).variantImages
        = (collect_variants [] (sortedGroup entries name)).2 := rfl
    refine ⟨?_, ?_, ?_, ?_, ?_⟩
    · rw [hfst, hsnd]
      exact collect_variants_length [] _
    · rw [hfst, collect_variants_fst]
      exact nodup_dedup_keys_from
    · rw [hfst, collect_variants_fst, hgr]
      rfl
    · intro c
      rw [hfst, collect_variants_fst]
      show c ∈ dedup_keys_from [] _ ↔ _
      rw [mem_dedup_keys_from]
      simp only [List.not_mem_nil, not_false_iff, and_true]
      constructor
      · intro hm
        rcases List.mem_map.mp hm with ⟨e, he, hv⟩
        have := mem_sortedGroup.mp he
        refine ⟨e, this.1, ?_, hv⟩
        rw [this.2]
        exact ((mem_sortedGroup.mp (headD_mem (sortedGroup_ne_nil
          (mem_sortedNames_iff.mp hname)))).2).symm
      · rintro ⟨e, he, hn, hv⟩
        refine List.mem_map.mpr ⟨e, ?_, hv⟩
        apply mem_sortedGroup.mpr
        refine ⟨he, ?_⟩
        rw [hn]
        exact (mem_sortedGroup.mp (headD_mem (sortedGroup_ne_nil
          (mem_sortedNames_iff.mp hname)))).2
    · intro i c img h1 h2
      rw [hgr]
      exact collect_variants_align [] _ i c img (hfst ▸ h1) (hsnd ▸ h2)
  · intro card
    show (Scripts.simplify_card card).variants.length
        = ((Scripts.simplify_card card).variants.map _).length
    rw [List.length_map]

/-- C9 witness: the worker part applied to a two-entry catalog sharing
one name with a duplicated variant code. -/
theorem c9_variants_images_alignment_witness :
    ((assemble_cards_by_name
      [ { name := "X", variantNumber := "OGN-001", releaseDate := "2024-01-01", setId := "OGN" },
        { name := "X", variantNumber := "OGN-001", releaseDate := "2024-01-01", setId := "OGN", variantImage := "u2" } ]).headD
        default).variants.length
      = ((assemble_cards_by_name
      [ { name := "X", variantNumber := "OGN-001", releaseDate := "2024-01-01", setId := "OGN" },
        { name := "X", variantNumber := "OGN-001", releaseDate := "2024-01-01", setId := "OGN", variantImage := "u2" } ]).headD
        default).variantImages.length :=
  (c9_variants_images_alignment.1
    [ { name := "X", variantNumber := "OGN-001", releaseDate := "2024-01-01", setId := "OGN" },
      { name := "X", variantNumber := "OGN-001", releaseDate := "2024-01-01", setId := "OGN", variantImage := "u2" } ]
    _ (by decide)).1

/-! ### Facts about the snapshot differ (C4) -/

lemma mem_names_iff_containsName {cards : List CardRecord} {name : String} :
    name ∈ dedup_keys (cards.map (fun c => c.name))
      ↔ containsName cards name = true := by
  rw [mem_dedup_keys]
  unfold containsName
  rw [List.any_eq_true]
  constructor
  · intro h
    rcases List.mem_map.mp h with ⟨c, hc, hn⟩
    exact ⟨c, hc, by simp [hn]⟩
  · rintro ⟨c, hc, hb⟩
    simp only [decide_eq_true_eq] at hb
    exact List.mem_map.mpr ⟨c, hc, hb⟩

lemma compare_cards_added_names (old_cards new_cards : List CardRecord) :
    (compare_cards (some old_cards) new_cards).added_names
      = (dedup_keys (new_cards.map (fun c => c.name))).filter
          (fun n => !containsName old_cards n) := rfl

lemma compare_cards_removed_names (old_cards new_cards : List CardRecord) :
    (compare_cards (some old_cards) new_cards).removed_names
      = (dedup_keys (old_cards.map (fun c => c.name))).filter
          (fun n => !containsName new_cards n) := rfl

lemma compare_cards_updated_names (old_cards new_cards : List CardRecord) :
    (compare_cards (some old_cards) new_cards).updated_names
      = ((dedup_keys (new_cards.map (fun c => c.name))).filter
          (fun n => containsName old_cards n)).filter
            (fun n => cardsDiffer (lookupByName old_cards n)
              (lookupByName new_cards n)) := rfl

/-- C4: with a previous snapshot present, the differ keys cards by
name: a (deduplicated) name is classified added iff it occurs in the
new snapshot only, removed iff in the old snapshot only, and updated
iff it occurs in both and the two cards (last occurrence winning, as in
a Python dict comprehension) differ on the fixed field set; every new
name is added, updated or unchanged (the counts partition the distinct
new names); and two cards differ exactly when one of `name,
description, variantNumber, variants, type, super, energy, power,
might, colors, tags, releaseDate` differs, the list-valued fields
compared as sets (`toFinset`), the rest by equality. -/
theorem c4_compare_cards_classification (old_cards new_cards : List CardRecord) :
    (∀ name, name ∈ (compare_cards (some old_cards) new_cards).added_names
        ↔ containsName new_cards name = true ∧ containsName old_cards name = false)
    ∧ (∀ name, name ∈ (compare_cards (some old_cards) new_cards).removed_names
        ↔ containsName old_cards name = true ∧ containsName new_cards name = false)
    ∧ (∀ name, name ∈ (compare_cards (some old_cards) new_cards).updated_names
        ↔ containsName old_cards name = true ∧ containsName new_cards name = true
          ∧ cardsDiffer (lookupByName old_cards name) (lookupByName new_cards name) = true)
    ∧ (compare_cards (some old_cards) new_cards).added
        + (compare_cards (some old_cards) new_cards).updated
        + (compare_cards (some old_cards) new_cards).unchanged
        = (dedup_keys (new_cards.map (fun c => c.name))).length
    ∧ (compare_cards (some old_cards) new_cards).is_first_run = false
    ∧ (∀ o n : CardRecord, cardsDiffer o n = true ↔
        (o.name ≠ n.name ∨ o.description ≠ n.description
          ∨ o.variantNumber ≠ n.variantNumber
          ∨ o.variants.toFinset ≠ n.variants.toFinset
          ∨ o.type_ ≠ n.type_ ∨ o.super ≠ n.super
          ∨ o.energy ≠ n.energy ∨ o.power ≠ n.power ∨ o.might ≠ n.might
          ∨ o.colors.toFinset ≠ n.colors.toFinset
          ∨ o.tags.toFinset ≠ n.tags.toFinset
          ∨ o.releaseDate ≠ n.releaseDate)) := by
  refine ⟨?_, ?_, ?_, ?_, rfl, ?_⟩
  · intro name
    rw [compare_cards_added_names, List.mem_filter, mem_names_iff_containsName]
    simp [Bool.not_eq_true']
  · intro name
    rw [compare_cards_removed_names, List.mem_filter, mem_names_iff_containsName]
    simp [Bool.not_eq_true']
  · intro name
    rw [compare_cards_updated_names, List.mem_filter, List.mem_filter,
      mem_names_iff_containsName]
    constructor
    · rintro ⟨⟨h1, h2⟩, h3⟩
      exact ⟨h2, h1, h3⟩
    · rintro ⟨h1, h2, h3⟩
      exact ⟨⟨h2, h1⟩, h3⟩
  · have hpart1 := List.length_eq_length_filter_add
      (l := dedup_keys (new_cards.map (fun c => c.name)))
      (fun n => containsName old_cards n)
    have hpart2 := List.length_eq_length_filter_add
      (l := (dedup_keys (new_cards.map (fun c => c.name))).filter
        (fun n => containsName old_cards n))
      (fun n => cardsDiffer (lookupByName old_cards n) (lookupByName new_cards n))
    have e1 : ((dedup_keys (new_cards.map (fun c => c.name))).filter
        (fun a => !(fun n => containsName old_cards n) a))
        = (dedup_keys (new_cards.map (fun c => c.name))).filter
            (fun n => !containsName old_cards n) := rfl
    have e2 : (((dedup_keys (new_cards.map (fun c => c.name))).filter
        (fun n => containsName old_cards n)).filter
          (fun a => !(fun n => cardsDiffer (lookupByName old_cards n)
            (lookupByName new_cards n)) a))
        = ((dedup_keys (new_cards.map (fun c => c.name))).filter
            (fun n => containsName old_cards n)).filter
              (fun n => !cardsDiffer (lookupByName old_cards n)
                (lookupByName new_cards n)) := rfl
    rw [e1] at hpart1
    rw [e2] at hpart2
    show ((dedup_keys (new_cards.map (fun c => c.name))).filter
        (fun n => !containsName old_cards n)).length
      + (((dedup_keys (new_cards.map (fun c => c.name))).filter
          (fun n => containsName old_cards n)).filter
            (fun n => cardsDiffer (lookupByName old_cards n)
              (lookupByName new_cards n))).length
      + (((dedup_keys (new_cards.map (fun c => c.name))).filter
          (fun n => containsName old_cards n)).filter
            (fun n => !cardsDiffer (lookupByName old_cards n)
              (lookupByName new_cards n))).length
      = (dedup_keys (new_cards.map (fun c => c.name))).length
    omega
  · intro o n
    unfold cardsDiffer
    simp only [Bool.or_eq_true, decide_eq_true_eq, Ne]
    tauto

/-! ### Facts about the image publishers (C3, C7) -/

/-- C3: for both publishers, with a non-empty URL and the object already
present at the deterministic destination, no fetch happens
(`fetches = 0`), the state is unchanged and the existing public
reference is returned with `isNewlyUploaded = false` — regardless of
whether fetch or store would succeed; consequently two successive calls
on a fresh destination perform exactly one fetch/upload (the first,
which returns `isNew = true`) and the second call fetches nothing and
returns `isNewlyUploaded = false`. -/
theorem c3_image_publish_idempotent :
    (∀ (cfg : SpacesCfg) (fetch_ok store_ok : Bool)
        (u set_folder variant_number : String) (objects : List String),
      u ≠ "" →
      prefixed_key cfg (image_relative_path set_folder variant_number) ∈ objects →
      upload_variant_image cfg fetch_ok store_ok (some u) set_folder variant_number objects
        = ⟨cfg.publicBase ++ "/"
              ++ prefixed_key cfg (image_relative_path set_folder variant_number),
            false, objects, 0⟩)
    ∧ (∀ (fetch_ok write_ok : Bool) (u set_folder variant_number : String)
        (files : List String),
      u ≠ "" →
      image_relative_path set_folder variant_number ∈ files →
      store_variant_image_static fetch_ok write_ok (some u) set_folder variant_number files
        = .ok ("/" ++ image_relative_path set_folder variant_number) false files 0)
    ∧ (∀ (cfg : SpacesCfg) (u set_folder variant_number : String) (objects : List String),
      u ≠ "" →
      prefixed_key cfg (image_relative_path set_folder variant_number) ∉ objects →
      upload_variant_image cfg true true (some u) set_folder variant_number objects
        = ⟨cfg.publicBase ++ "/"
              ++ prefixed_key cfg (image_relative_path set_folder variant_number),
            true,
            objects ++ [prefixed_key cfg (image_relative_path set_folder variant_number)],
            1⟩
      ∧ upload_variant_image cfg true true (some u) set_folder variant_number
          (objects ++ [prefixed_key cfg (image_relative_path set_folder variant_number)])
        = ⟨cfg.publicBase ++ "/"
              ++ prefixed_key cfg (image_relative_path set_folder variant_number),
            false,
            objects ++ [prefixed_key cfg (image_relative_path set_folder variant_number)],
            0⟩)
    ∧ (∀ (u set_folder variant_number : String) (files : List String),
      u ≠ "" →
      image_relative_path set_folder variant_number ∉ files →
      store_variant_image_static true true (some u) set_folder variant_number files
        = .ok ("/" ++ image_relative_path set_folder variant_number) true
            (files ++ [image_relative_path set_folder variant_number]) 1
      ∧ store_variant_image_static true true (some u) set_folder variant_number
          (files ++ [image_relative_path set_folder variant_number])
        = .ok ("/" ++ image_relative_path set_folder variant_number) false
            (files ++ [image_relative_path set_folder variant_number]) 0) := by
  refine ⟨?_, ?_, ?_, ?_⟩
  · intro cfg fetch_ok store_ok u set_folder variant_number objects hu hmem
    simp only [upload_variant_image]
    rw [if_neg hu, if_pos hmem]
  · intro fetch_ok write_ok u set_folder variant_number files hu hmem
    simp only [store_variant_image_static]
    rw [if_neg hu, if_pos hmem]
  · intro cfg u set_folder variant_number objects hu hmem
    constructor
    · simp only [upload_variant_image]
      rw [if_neg hu, if_neg hmem]
      simp
    · simp only [upload_variant_image]
      rw [if_neg hu, if_pos (List.mem_append_right objects (List.mem_singleton_self _))]
  · intro u set_folder variant_number files hu hmem
    constructor
    · simp only [store_variant_image_static]
      rw [if_neg hu, if_neg hmem]
      simp
    · simp only [store_variant_image_static]
      rw [if_neg hu, if_pos (List.mem_append_right files (List.mem_singleton_self _))]

/-- C3 witness: the Spaces publisher applied with the destination key
already in the bucket returns the existing reference without fetching. -/
theorem c3_image_publish_idempotent_witness :
    upload_variant_image { publicBase := "https://b.sfo3.digitaloceanspaces.com" }
        true true (some "http://src/img.png") "OGN" "OGN-001"
        ["img/OGN/OGN-001.png"]
      = ⟨"https://b.sfo3.digitaloceanspaces.com/img/OGN/OGN-001.png",
          false, ["img/OGN/OGN-001.png"], 0⟩ :=
  ((c3_image_publish_idempotent.1
    { publicBase := "https://b.sfo3.digitaloceanspaces.com" }
    true true "http://src/img.png" "OGN" "OGN-001"
    ["img/OGN/OGN-001.png"] (by decide) (by decide)).trans (by decide))

/-- C7 counterexample: in the static publisher a filesystem write
failure after a successful fetch is NOT caught (the `except` clause
only catches `requests.RequestException`), so the call raises instead
of returning the source URL. -/
theorem c7_static_write_failure_raises :
    store_variant_image_static true false (some "http://cdn/img.png") "OGN" "OGN-001" []
      = StaticResult.raised [] 1 := by decide

/-- C7 (amended): the Spaces publisher never raises on an image fetch
or store failure — with a fresh destination it logs and returns the
original source URL with `isNewlyUploaded = false` and an unchanged
bucket; the static publisher does the same for FETCH failures only (a
filesystem write failure propagates, per the counterexample). -/
theorem c7_failure_returns_source_url :
    (∀ (cfg : SpacesCfg) (store_ok : Bool) (u set_folder variant_number : String)
        (objects : List String),
      u ≠ "" →
      prefixed_key cfg (image_relative_path set_folder variant_number) ∉ objects →
      upload_variant_image cfg false store_ok (some u) set_folder variant_number objects
        = ⟨u, false, objects, 1⟩)
    ∧ (∀ (cfg : SpacesCfg) (u set_folder variant_number : String)
        (objects : List String),
      u ≠ "" →
      prefixed_key cfg (image_relative_path set_folder variant_number) ∉ objects →
      upload_variant_image cfg true false (some u) set_folder variant_number objects
        = ⟨u, false, objects, 1⟩)
    ∧ (∀ (write_ok : Bool) (u set_folder variant_number : String)
        (files : List String),
      u ≠ "" →
      image_relative_path set_folder variant_number ∉ files →
      store_variant_image_static false write_ok (some u) set_folder variant_number files
        = .ok u false files 1) := by
  refine ⟨?_, ?_, ?_⟩
  · intro cfg store_ok u set_folder variant_number objects hu hmem
    simp only [upload_variant_image]
    rw [if_neg hu, if_neg hmem]
    simp
  · intro cfg u set_folder variant_number objects hu hmem
    simp only [upload_variant_image]
    rw [if_neg hu, if_neg hmem]
    simp
  · intro write_ok u set_folder variant_number files hu hmem
    simp only [store_variant_image_static]
    rw [if_neg hu, if_neg hmem]
    simp

/-- C7 witness: a fetch failure against an empty bucket returns the
source URL as the degraded reference. -/
theorem c7_failure_returns_source_url_witness :
    upload_variant_image {} false true (some "http://src/img.png") "OGN" "OGN-001" []
      = ⟨"http://src/img.png", false, [], 1⟩ :=
  c7_failure_returns_source_url.1 {} true "http://src/img.png" "OGN" "OGN-001" []
    (by decide) (by decide)

/-! ### Facts about the primary-variant selection (C8) -/

namespace Scripts

lemma nkeyLe_refl (a : String × Nat) : nkeyLe a a = true := by
  unfold nkeyLe
  simp [strLtB_irrefl]

lemma normalLe_refl (v : ScriptVariant) : normalLe v v :=
  nkeyLe_refl _

lemma head?_insert_after_first (a b x : String) (xs : List String) :
    (insert_after_first a b (x :: xs)).head? = some x := by
  unfold insert_after_first
  by_cases h : x = a
  · rw [if_pos h]
    rfl
  · rw [if_neg h]
    rfl

end Scripts

/-- C8 counterexample: for a card whose strict-pattern variants are
`OGN-001` (released 2026) and `OGN-002` (released 2025), the code
designated primary and promoted to the front is `OGN-002` — the one
with the EARLIEST release date — although `OGN-001` also matches the
pattern and is both lexicographically and numerically smaller,
contradicting the claimed smallest-code-first, date-tie-break rule. -/
theorem c8_primary_selection_counterexample :
    Scripts.get_normal_variant_number
      { cardVariants :=
          [ { variantNumber := "OGN-001", releaseDate := "2026-01-01" },
            { variantNumber := "OGN-002", releaseDate := "2025-01-01" } ] }
      = some "OGN-002"
    ∧ (Scripts.simplify_card
      { cardVariants :=
          [ { variantNumber := "OGN-001", releaseDate := "2026-01-01" },
            { variantNumber := "OGN-002", releaseDate := "2025-01-01" } ] }).variants
      = ["OGN-002", "OGN-001"]
    ∧ Scripts.matches_set_variant "OGN-001" = true
    ∧ strLtB "OGN-001".data "OGN-002".data = true := by
  refine ⟨by decide, by decide, by decide, by decide⟩

/-- C8 (amended): the designated primary code is the strict-pattern
variant minimizing `(releaseDate, number)` — earliest release date
first, smallest 3-digit number as tie-break (not smallest code
tie-broken by date); a code not matching the strict `SET-NNN` pattern
never qualifies; and when the primary's normalized code occurs in the
sorted variant list, `simplify_card` moves it to the front. -/
theorem c8_primary_variant_promotion :
    (∀ (card : Scripts.ScriptCard) (vn : String),
      Scripts.get_normal_variant_number card = some vn →
      Scripts.matches_set_variant vn = true
      ∧ ∃ v ∈ Scripts.matching_variants card, v.variantNumber = vn
          ∧ ∀ w ∈ Scripts.matching_variants card,
              Scripts.nkeyLe (Scripts.normal_sort_key v) (Scripts.normal_sort_key w) = true)
    ∧ (∀ (card : Scripts.ScriptCard) (onv : String),
      Scripts.get_normal_variant_number card = some onv →
      Scripts.normalize_variant_number onv ∈ Scripts.sort_variants card.cardVariants →
      (Scripts.simplify_card card).variants.head?
        = some (Scripts.normalize_variant_number onv)) := by
  constructor
  · intro card vn h
    unfold Scripts.get_normal_variant_number at h
    by_cases hmv : (Scripts.matching_variants card).isEmpty = true
    · rw [if_pos hmv] at h
      cases h
    · rw [if_neg hmv] at h
      have hmvne : Scripts.matching_variants card ≠ [] := by
        intro hn
        rw [hn] at hmv
        exact hmv rfl
      have hne : (Scripts.matching_variants card).insertionSort Scripts.normalLe ≠ [] := by
        intro hn
        apply hmvne
        have hperm := List.perm_insertionSort Scripts.normalLe
          (Scripts.matching_variants card)
        rw [hn] at hperm
        exact hperm.symm.eq_nil
      have hb : ((Scripts.matching_variants card).insertionSort Scripts.normalLe).headD default
          ∈ (Scripts.matching_variants card).insertionSort Scripts.normalLe :=
        headD_mem hne
      have hbmv : ((Scripts.matching_variants card).insertionSort Scripts.normalLe).headD default
          ∈ Scripts.matching_variants card :=
        (List.mem_insertionSort Scripts.normalLe).mp hb
      have hvn : (((Scripts.matching_variants card).insertionSort
          Scripts.normalLe).headD default).variantNumber = vn := by
        injection h
      constructor
      · rw [← hvn]
        exact (List.mem_filter.mp hbmv).2
      · refine ⟨_, hbmv, hvn, ?_⟩
        intro w hw
        exact pairwise_headD_le Scripts.normalLe_refl
          (List.sorted_insertionSort Scripts.normalLe _) w
          ((List.mem_insertionSort Scripts.normalLe).mpr hw)
  · intro card onv h hmem
    simp only [Scripts.simplify_card, h, Option.map_some', hmem, if_true]
    by_cases hr : card.type_ = some "Rune"
        ∧ Scripts.normalize_variant_number onv ∈ Scripts.rune_base_ids
    · rw [if_pos hr]
      by_cases hbv : Scripts.normalize_variant_number onv ++ "b"
          ∈ Scripts.normalize_variant_number onv
            :: (Scripts.sort_variants card.cardVariants).erase
                (Scripts.normalize_variant_number onv)
      · rw [if_pos hbv]
        rfl
      · rw [if_neg hbv]
        by_cases hav : Scripts.normalize_variant_number onv ++ "a"
            ∈ Scripts.normalize_variant_number onv
              :: (Scripts.sort_variants card.cardVariants).erase
                  (Scripts.normalize_variant_number onv)
        · rw [if_pos hav]
          exact Scripts.head?_insert_after_first _ _ _ _
        · rw [if_neg hav]
          rfl
    · rw [if_neg hr]
      rfl

/-- C8 witness: the selection half applied to the counterexample card
shows the primary code matches the strict pattern. -/
theorem c8_primary_variant_promotion_witness :
    Scripts.matches_set_variant "OGN-002" = true :=
  (c8_primary_variant_promotion.1
    { cardVariants :=
        [ { variantNumber := "OGN-001", releaseDate := "2026-01-01" },
          { variantNumber := "OGN-002", releaseDate := "2025-01-01" } ] }
    "OGN-002" (by decide)).1
